import Mathlib

/-!
Verification of the result-compilation pipeline (`compile_results.py` and
`create_exact_results.py`).

The Python code is shallowly embedded: Python floats are modelled as
rationals (`ℚ`), Python `None` as `Option.none`, dictionaries as
association lists, and file-system / regex effects as explicit inputs.
Regex searches are modelled by structures carrying the captured groups
(an `Option` per search: `none` when the pattern did not match), and
Python's `float()` conversion is an explicit oracle parameter
`pyFloat : String → Option ℚ` (`none` models a `ValueError`).
A Python statement whose exception is *uncaught* makes the embedded
function return `none` at its outer `Option` layer.
-/

namespace CompileResults

/-- Check whether the first list of characters leads the second (Python
`startswith` on the underlying text). -/
def leadsWith : List Char → List Char → Bool
  | [], _ => true
  | _ :: _, [] => false
  | p :: ps, c :: cs => decide (p = c) && leadsWith ps cs

/-- Model of Python `s.startswith(pre)`. -/
def pyStartsWith (s pre : String) : Bool :=
  leadsWith pre.toList s.toList

/-- Model of Python `s.endswith(suf)`. -/
def pyEndsWith (s suf : String) : Bool :=
  leadsWith suf.toList.reverse s.toList.reverse

/-- Model of Python `s.strip()`: drop whitespace from both ends. -/
def pyStrip (s : String) : String :=
  String.mk
    (((s.toList.dropWhile Char.isWhitespace).reverse.dropWhile
        Char.isWhitespace).reverse)

/-- Model of Python `s.lower()` (ASCII case folding). -/
def pyLower (s : String) : String :=
  String.mk (s.toList.map Char.toLower)

/-- Model of Python `s.upper()` (ASCII case folding). -/
def pyUpper (s : String) : String :=
  String.mk (s.toList.map Char.toUpper)

/-- Model of Python `s.split(sep)` for a one-character separator: split on
every occurrence, keeping empty pieces.  The result is always non-empty. -/
def pySplitAux (sep : Char) : List Char → List Char → List String
  | [], acc => [String.mk acc.reverse]
  | c :: cs, acc =>
    if c = sep then String.mk acc.reverse :: pySplitAux sep cs []
    else pySplitAux sep cs (c :: acc)

/-- Model of Python `s.split(sep)` (single-character separator). -/
def pySplit (sep : Char) (s : String) : List String :=
  pySplitAux sep s.toList []

/-- Model of a Python list comprehension over `l` applying a fallible `f`:
`some` of the mapped list when every element converts, `none` when some
element raises (`f` returns `none`). -/
def traverseOpt (f : α → Option β) : List α → Option (List β)
  | [] => some []
  | a :: l =>
    match f a, traverseOpt f l with
    | some b, some bs => some (b :: bs)
    | _, _ => none

/-- Model of Python `int()` on a string: optional surrounding whitespace,
optional sign, then a non-empty run of decimal digits (`none` models a
`ValueError`; digit-grouping underscores are not modelled). -/
def pyInt (s : String) : Option ℤ :=
  let t := (pyStrip s).toList
  let signed : ℤ × List Char :=
    match t with
    | '-' :: rest => (-1, rest)
    | '+' :: rest => (1, rest)
    | _ => (1, t)
  if signed.2 ≠ [] ∧ signed.2.all (fun c => c.isDigit) then
    some (signed.1 *
      (signed.2.foldl (fun acc c => acc * 10 + ((c.toNat : ℤ) - 48)) 0))
  else none

/-- Model of Python `pathlib.Path(s).name`: the final path component. -/
def pathName (s : String) : String :=
  (pySplit '/' s).getLastD s

/-- Model of Python `x or d` on an optional string `x`: the default is used
when `x` is `None` or the empty string. -/
def pyOr (x : Option String) (d : String) : String :=
  match x with
  | some s => if s = "" then d else s
  | none => d

/-- Round a rational to the nearest integer, ties to even (the rounding of
Python's fixed-point string formatting). -/
def roundHalfEven (x : ℚ) : ℤ :=
  let n := ⌊x⌋
  if x - n < 1 / 2 then n
  else if x - n > 1 / 2 then n + 1
  else if n % 2 = 0 then n else n + 1

/-- Left-pad a string with zeros to the given length. -/
def padZeros (s : String) (n : Nat) : String :=
  if s.length < n then String.mk (List.replicate (n - s.length) '0') ++ s else s

/-- Model of Python `f"{x:.pf}"` fixed-point formatting of a (real-valued)
number with `p` fractional digits. -/
def formatFixed (prec : Nat) (x : ℚ) : String :=
  let sign := if x < 0 then "-" else ""
  let scaled := (roundHalfEven (|x| * (10 : ℚ) ^ prec)).toNat
  let ipart := scaled / 10 ^ prec
  let fpart := scaled % 10 ^ prec
  if prec = 0 then sign ++ toString ipart
  else sign ++ toString ipart ++ "." ++ padZeros (toString fpart) prec

/-- Model of Python `str()` on a list of floats (used only for the raw
bounds columns; no property proved here depends on the float rendering,
which is approximated by `Rat`'s `toString`). -/
def pyStrFloatList (l : List ℚ) : String :=
  "[" ++ String.intercalate ", " (l.map (fun q => toString q)) ++ "]"

/-- Result dictionary of `parse_abcrown_run_out` / `parse_luna_run_out`
(`compile_results.py` lines 43 and 97). -/
structure RunOutData where
  lower_bounds : Option (List ℚ)
  upper_bounds : Option (List ℚ)
  status : Option String
  time : Option ℚ
  onnx_file : Option String
  vnnlib_file : Option String
deriving DecidableEq, Repr

/-- Result of `parse_output_log` (`compile_results.py` lines 144-171). -/
structure LogData where
  wall_time : Option ℚ
  timed_out : Bool
deriving DecidableEq, Repr

/-- Captured groups of the regex searches of `parse_abcrown_run_out`
(`compile_results.py` lines 41-92); each field is `none` when the
corresponding pattern found no match. `args_tokens` carries the
whitespace-split tokens of the matched `c args:` line. -/
structure AbcrownRaw where
  args_tokens : Option (List String)
  result_token : Option String
  time_token : Option String
  alpha_lower : Option String
  alpha_upper : Option String
  crown_lower : Option String
  crown_upper : Option String
deriving DecidableEq, Repr

/-- Captured groups of the regex searches of `parse_luna_run_out`
(`compile_results.py` lines 95-141). `bounds_pairs` is `none` when the
`Output Bounds:` pattern found no match, and otherwise carries the
`findall` capture pairs from the bounds line (possibly the empty list). -/
structure LunaRaw where
  args_tokens : Option (List String)
  result_token : Option String
  prop_status_token : Option String
  bounds_pairs : Option (List (String × String))
deriving DecidableEq, Repr

/-- Embedding of `parse_args_line` (`compile_results.py` lines 24-38):
scan the tokens of the `c args:` line, remembering the last token ending
in `.onnx` and the last ending in `.vnnlib`, reduced to base filenames. -/
def parse_args_line (args_tokens : Option (List String)) :
    Option String × Option String :=
  match args_tokens with
  | none => (none, none)
  | some args =>
    args.foldl
      (fun acc arg =>
        if pyEndsWith arg ".onnx" then (some (pathName arg), acc.2)
        else if pyEndsWith arg ".vnnlib" then (acc.1, some (pathName arg))
        else acc)
      (none, none)

/-- Embedding of the bounds-list conversion of `parse_abcrown_run_out`
(`compile_results.py` lines 80-90): split the captured group on commas and
convert each piece with `float()`; a `ValueError` is caught and leaves the
field absent. -/
def parse_float_list (pyFloat : String → Option ℚ) (captured : String) :
    Option (List ℚ) :=
  traverseOpt (fun x => pyFloat (pyStrip x)) (pySplit ',' captured)

/-- Embedding of `parse_abcrown_run_out` (`compile_results.py` lines
41-92) over the captured regex groups.  The outer `Option` is `none` when
the uncaught `float()` conversion of the `Time:` group raises. -/
def parse_abcrown_run_out (pyFloat : String → Option ℚ) (raw : AbcrownRaw) :
    Option RunOutData :=
  let files := parse_args_line raw.args_tokens
  let st := raw.result_token.map
    (fun w => if pyLower w = "unsat" then "verified" else pyLower w)
  let lower_match := raw.alpha_lower.or raw.crown_lower
  let upper_match := raw.alpha_upper.or raw.crown_upper
  let lbs := lower_match.bind (parse_float_list pyFloat)
  let ubs := upper_match.bind (parse_float_list pyFloat)
  match raw.time_token with
  | none => some ⟨lbs, ubs, st, none, files.1, files.2⟩
  | some ts =>
    match pyFloat ts with
    | none => none
    | some t => some ⟨lbs, ubs, st, some t, files.1, files.2⟩

/-- Embedding of `parse_luna_run_out` (`compile_results.py` lines 95-141)
over the captured regex groups.  The outer `Option` is `none` when an
uncaught `float()` conversion of a captured bound raises. -/
def parse_luna_run_out (pyFloat : String → Option ℚ) (raw : LunaRaw) :
    Option RunOutData :=
  let files := parse_args_line raw.args_tokens
  let st :=
    match raw.result_token with
    | some w =>
      some (if pyLower w = "unsat" ∨ pyLower w = "sat" then "verified"
            else "unknown")
    | none =>
      raw.prop_status_token.map
        (fun w => if pyUpper w = "VERIFIED" ∨ pyUpper w = "VIOLATED" then
            "verified" else "unknown")
  match raw.bounds_pairs with
  | none => some ⟨none, none, st, none, files.1, files.2⟩
  | some pairs =>
    if pairs.isEmpty then some ⟨none, none, st, none, files.1, files.2⟩
    else
      match traverseOpt (fun p => pyFloat p.1) pairs,
            traverseOpt (fun p => pyFloat p.2) pairs with
      | some ls, some us => some ⟨some ls, some us, st, none, files.1, files.2⟩
      | _, _ => none

/-- Embedding of `compute_bound_width` (`compile_results.py` lines
174-182): average width of the bound intervals, `none` when either list is
absent or empty (Python truthiness) or the lengths differ. -/
def compute_bound_width :
    Option (List ℚ) → Option (List ℚ) → Option ℚ
  | some ls, some us =>
    if ls.isEmpty || us.isEmpty then none
    else if ls.length ≠ us.length then none
    else
      let widths := (ls.zip us).map (fun p => p.2 - p.1)
      some (widths.sum / (widths.length : ℚ))
  | _, _ => none

/-- One job record as appended by `collect_results_for_tool`
(`compile_results.py` lines 238-251). -/
structure JobRecord where
  tool : String
  benchmark : String
  slurm_id : String
  onnx_file : Option String
  vnnlib_file : Option String
  status : Option String
  wall_time : Option ℚ
  timed_out : Bool
  has_result : Bool
  bound_width : Option ℚ
  lower_bounds : Option (List ℚ)
  upper_bounds : Option (List ℚ)
deriving DecidableEq, Repr

/-- Embedding of the record-building step of `collect_results_for_tool`
(`compile_results.py` lines 230-251): derive `bound_width` and
`has_result` from the parsed data and assemble the record. -/
def mkRecord (tool benchmark slurm_id : String) (data : RunOutData)
    (log_data : LogData) : JobRecord :=
  let bound_width := compute_bound_width data.lower_bounds data.upper_bounds
  let has_bounds := data.lower_bounds.isSome && data.upper_bounds.isSome
  let has_result := log_data.timed_out || has_bounds
  { tool := tool
    benchmark := benchmark
    slurm_id := slurm_id
    onnx_file := data.onnx_file
    vnnlib_file := data.vnnlib_file
    status := data.status
    wall_time := log_data.wall_time
    timed_out := log_data.timed_out
    has_result := has_result
    bound_width := bound_width
    lower_bounds := data.lower_bounds
    upper_bounds := data.upper_bounds }

/-- One rendered row of the per-instance CSV (all cells are strings). -/
structure InstanceRow where
  tool : String
  benchmark : String
  slurm_id : String
  onnx_file : String
  vnnlib_file : String
  status : String
  timed_out : String
  wall_time : String
  bound_width : String
  lower_bounds : String
  upper_bounds : String
deriving DecidableEq, Repr

/-- Embedding of the row construction of `write_instance_csv`
(`compile_results.py` lines 269-281).  Note the differing missing-value
tests of the source: `wall_time` and the bounds lists are tested for
Python truthiness, `bound_width` with `is not None`. -/
def instance_csv_row (r : JobRecord) : InstanceRow :=
  { tool := r.tool
    benchmark := r.benchmark
    slurm_id := r.slurm_id
    onnx_file := pyOr r.onnx_file ""
    vnnlib_file := pyOr r.vnnlib_file ""
    status := pyOr r.status ""
    timed_out := if r.timed_out then "TO" else ""
    wall_time :=
      match r.wall_time with
      | some t => if t = 0 then "" else formatFixed 4 t
      | none => ""
    bound_width :=
      match r.bound_width with
      | some b => formatFixed 6 b
      | none => "--"
    lower_bounds :=
      match r.lower_bounds with
      | some l => if l.isEmpty then "--" else pyStrFloatList l
      | none => "--"
    upper_bounds :=
      match r.upper_bounds with
      | some l => if l.isEmpty then "--" else pyStrFloatList l
      | none => "--" }

/-- The (benchmark, slurm_id) key of a job record, as used by the
common-instance filter and the aggregate restrictions. -/
def recordKey (r : JobRecord) : String × String :=
  (r.benchmark, r.slurm_id)

/-- One row of the aggregate CSV before rendering
(`compile_results.py` lines 357-370). -/
structure AggregateRow where
  benchmark : String
  total_instances : Nat
  solved_count : Nat
  solved_pct : ℚ
  timeout_count : Nat
  timeout_pct : ℚ
  verified_count : Nat
  verified_pct : ℚ
  avg_bound_width : Option ℚ
  avg_lower_bound : Option ℚ
  avg_upper_bound : Option ℚ
  avg_runtime : Option ℚ
deriving DecidableEq, Repr

/-- Embedding of one loop iteration of `compute_aggregates`
(`compile_results.py` lines 305-370) for a single benchmark and its
instance list. -/
def aggregate_row (common_bounds_instances common_finished_instances :
    Option (Finset (String × String))) (benchmark : String)
    (instances : List JobRecord) : AggregateRow :=
  let total := instances.length
  let solved := instances.countP (fun i => i.bound_width.isSome)
  let timeout := instances.countP (fun i => i.bound_width.isNone)
  let verified := instances.countP (fun i => decide (i.status = some "verified"))
  let common_bounds :=
    match common_bounds_instances with
    | some cbi => instances.filter (fun i => decide (recordKey i ∈ cbi))
    | none => instances.filter (fun i => i.bound_width.isSome && !i.timed_out)
  let widths := common_bounds.filterMap (fun i => i.bound_width)
  let avg_width :=
    if widths ≠ [] then some (widths.sum / (widths.length : ℚ)) else none
  let lower_bounds := common_bounds.filterMap
    (fun i =>
      match i.lower_bounds with
      | some l => if l.isEmpty then none else some (l.sum / (l.length : ℚ))
      | none => none)
  let avg_lower :=
    if lower_bounds ≠ [] then
      some (lower_bounds.sum / (lower_bounds.length : ℚ))
    else none
  let upper_bounds := common_bounds.filterMap
    (fun i =>
      match i.upper_bounds with
      | some l => if l.isEmpty then none else some (l.sum / (l.length : ℚ))
      | none => none)
  let avg_upper :=
    if upper_bounds ≠ [] then
      some (upper_bounds.sum / (upper_bounds.length : ℚ))
    else none
  let common_finished :=
    match common_finished_instances with
    | some cfi => instances.filter (fun i => decide (recordKey i ∈ cfi))
    | none => instances.filter (fun i => i.wall_time.isSome)
  let times := common_finished.filterMap (fun i => i.wall_time)
  let avg_time :=
    if times ≠ [] then some (times.sum / (times.length : ℚ)) else none
  { benchmark := benchmark
    total_instances := total
    solved_count := solved
    solved_pct := if total > 0 then (solved : ℚ) / (total : ℚ) * 100 else 0
    timeout_count := timeout
    timeout_pct := if total > 0 then (timeout : ℚ) / (total : ℚ) * 100 else 0
    verified_count := verified
    verified_pct := if total > 0 then (verified : ℚ) / (total : ℚ) * 100 else 0
    avg_bound_width := avg_width
    avg_lower_bound := avg_lower
    avg_upper_bound := avg_upper
    avg_runtime := avg_time }

/-- Embedding of `compute_aggregates` (`compile_results.py` lines
287-372): group the records by benchmark (each group keeps the input
order) and emit one aggregate row per benchmark, in sorted benchmark
order. -/
def compute_aggregates (results : List JobRecord)
    (common_bounds_instances common_finished_instances :
      Option (Finset (String × String))) : List AggregateRow :=
  let names := ((results.map (fun r => r.benchmark)).dedup).mergeSort
    (fun a b => decide (a ≤ b))
  names.map (fun b =>
    aggregate_row common_bounds_instances common_finished_instances b
      (results.filter (fun r => decide (r.benchmark = b))))

/-- Keys of the records of a list that have `has_result` set
(`compile_results.py` lines 416-425). -/
def validKeys (results : List JobRecord) : Finset (String × String) :=
  ((results.filter (fun r => r.has_result)).map recordKey).toFinset

/-- Embedding of `filter_common_instances` (`compile_results.py` lines
409-444): intersect the two tools' `has_result` key sets and restrict
both record lists to that intersection. -/
def filter_common_instances (abcrown_results luna_results : List JobRecord) :
    List JobRecord × List JobRecord :=
  let common := validKeys abcrown_results ∩ validKeys luna_results
  (abcrown_results.filter (fun r => decide (recordKey r ∈ common)),
   luna_results.filter (fun r => decide (recordKey r ∈ common)))

/-- Keys of the records of a list whose `bound_width` is defined
(`compile_results.py` lines 453-462 and 479-488). -/
def boundsKeys (results : List JobRecord) : Finset (String × String) :=
  ((results.filter (fun r => r.bound_width.isSome)).map recordKey).toFinset

/-- Embedding of `get_common_bounds_instances` (`compile_results.py`
lines 447-470): keys where both tools computed bounds. -/
def get_common_bounds_instances (abcrown_results luna_results :
    List JobRecord) : Finset (String × String) :=
  let abcrown_with_bounds :=
    ((abcrown_results.filter (fun r => r.bound_width.isSome)).map
      recordKey).toFinset
  let luna_with_bounds :=
    ((luna_results.filter (fun r => r.bound_width.isSome)).map
      recordKey).toFinset
  abcrown_with_bounds ∩ luna_with_bounds

/-- Embedding of `get_common_finished_instances` (`compile_results.py`
lines 473-496): keys where both tools solved (computed bounds). -/
def get_common_finished_instances (abcrown_results luna_results :
    List JobRecord) : Finset (String × String) :=
  let abcrown_solved :=
    ((abcrown_results.filter (fun r => r.bound_width.isSome)).map
      recordKey).toFinset
  let luna_solved :=
    ((luna_results.filter (fun r => r.bound_width.isSome)).map
      recordKey).toFinset
  abcrown_solved ∩ luna_solved

/-- Definition written from the spec's words for §4.2: "`commonBoundsKeys`
= set of (benchmark, job_id) where both tools have a defined
`bound_width`" — the intersection of the two tools' defined-`bound_width`
key sets. -/
def commonBoundsKeysSpec (abcrown_results luna_results : List JobRecord) :
    Finset (String × String) :=
  boundsKeys abcrown_results ∩ boundsKeys luna_results

/-- One directory entry of a benchmark directory, as seen by the job
iteration of `collect_results_for_tool` (`compile_results.py` lines
208-219): its name, whether it is a directory, and whether it contains a
`run.out` file. -/
structure DirEntry where
  name : String
  is_dir : Bool
  has_run_out : Bool
deriving DecidableEq, Repr

/-- Embedding of the sort key of the job iteration
(`compile_results.py` line 208): `int(x.name.split("-")[1])` when the
name starts with `slurm-`, else `0`; `none` models the uncaught
`ValueError` of `int()`. -/
def slurm_sort_key (name : String) : Option ℤ :=
  if pyStartsWith name "slurm-" then pyInt ((pySplit '-' name).getD 1 "")
  else some 0

/-- Embedding of `sorted(benchmark_dir.iterdir(), key=...)` at
`compile_results.py` line 208: compute every entry's key (aborting with
`none` when any key raises), then sort stably by key. -/
def sorted_job_dirs (entries : List DirEntry) : Option (List DirEntry) :=
  (traverseOpt (fun e => (slurm_sort_key e.name).map (fun k => (k, e)))
      entries).map
    (fun keyed =>
      (keyed.mergeSort (fun a b => decide (a.1 ≤ b.1))).map (fun p => p.2))

/-- Embedding of the per-benchmark job loop of `collect_results_for_tool`
(`compile_results.py` lines 208-219) up to the choice of processed
directories: the sorted entries that are directories, named `slurm-*`,
and contain `run.out`; `none` models the run aborting with the sort's
uncaught `ValueError`. -/
def processed_job_dirs (entries : List DirEntry) : Option (List DirEntry) :=
  (sorted_job_dirs entries).map
    (fun sortedEntries =>
      sortedEntries.filter
        (fun e => e.is_dir && pyStartsWith e.name "slurm-" && e.has_run_out))

end CompileResults

namespace CreateExactResults

open CompileResults

/-- Key of the instance dictionary of `create_exact_results.py`:
(benchmark, onnx_file, vnnlib_file). -/
abbrev IKey := String × String × String

/-- The fields of a per-instance CSV row read by `parse_instances`
(`create_exact_results.py` lines 16-29); all cells are strings. -/
structure CsvRow where
  benchmark : String
  onnx_file : String
  vnnlib_file : String
  bound_width : String
  wall_time : String
  status : String
  timed_out : String
deriving DecidableEq, Repr

/-- The value stored per key by `parse_instances`
(`create_exact_results.py` lines 23-28). -/
structure IVals where
  bound_width : String
  wall_time : String
  status : String
  timed_out : String
deriving DecidableEq, Repr

/-- Dictionary key of a CSV row (`create_exact_results.py` line 22). -/
def rowKey (r : CsvRow) : IKey :=
  (r.benchmark, r.onnx_file, r.vnnlib_file)

/-- Dictionary value of a CSV row (`create_exact_results.py` lines
23-28). -/
def rowVals (r : CsvRow) : IVals :=
  ⟨r.bound_width, r.wall_time, r.status, r.timed_out⟩

/-- Python dictionary assignment `d[k] = v` on an association list:
overwrite any previous binding of `k`. -/
def dinsert (m : List (IKey × IVals)) (k : IKey) (v : IVals) :
    List (IKey × IVals) :=
  m.filter (fun p => decide (p.1 ≠ k)) ++ [(k, v)]

/-- Python dictionary lookup `d.get(k)` on an association list. -/
def dget (m : List (IKey × IVals)) (k : IKey) : Option IVals :=
  (m.find? (fun p => decide (p.1 = k))).map (fun p => p.2)

/-- Embedding of `parse_instances` (`create_exact_results.py` lines
16-29): fold the CSV rows into a dictionary keyed by (benchmark,
onnx_file, vnnlib_file); a later row with the same key overwrites. -/
def parse_instances (rows : List CsvRow) : List (IKey × IVals) :=
  rows.foldl (fun m r => dinsert m (rowKey r) (rowVals r)) []

/-- One output row of the joiner (`create_exact_results.py` lines
82-89). -/
structure JoinedRow where
  onnx_file : String
  vnnlib_file : String
  abcrown_bound_width : String
  luna_bound_width : String
  abcrown_runtime : String
  luna_runtime : String
deriving DecidableEq, Repr

/-- The (onnx_file, vnnlib_file) pairs of a mapping's keys under one
benchmark (`create_exact_results.py` lines 68-74, one `for` loop). -/
def instanceKeysFor (m : List (IKey × IVals)) (benchmark : String) :
    List (String × String) :=
  (m.map (fun p => p.1)).filterMap
    (fun k => if k.1 = benchmark then some (k.2.1, k.2.2) else none)

/-- Lexicographic order used by Python's `sorted` on string pairs. -/
def pairLe (a b : String × String) : Bool :=
  decide (a.1 < b.1) || (decide (a.1 = b.1) && decide (a.2 ≤ b.2))

/-- Python `row.get(field, "")` on an optional dictionary entry: the
stored string when the key was present, else the empty string
(`create_exact_results.py` lines 79-88; `parse_instances` always stores
every field, so only key absence yields the default). -/
def getField (v : Option IVals) (f : IVals → String) : String :=
  match v with
  | some d => f d
  | none => ""

/-- The loop body of the joiner (`create_exact_results.py` lines 76-90):
the joined row for one (onnx_file, vnnlib_file) key of a benchmark. -/
def joined_row (abcrown_instances luna_instances : List (IKey × IVals))
    (benchmark : String) (kv : String × String) : JoinedRow :=
  let key : IKey := (benchmark, kv.1, kv.2)
  { onnx_file := kv.1
    vnnlib_file := kv.2
    abcrown_bound_width :=
      getField (dget abcrown_instances key) (fun d => d.bound_width)
    luna_bound_width :=
      getField (dget luna_instances key) (fun d => d.bound_width)
    abcrown_runtime :=
      getField (dget abcrown_instances key) (fun d => d.wall_time)
    luna_runtime :=
      getField (dget luna_instances key) (fun d => d.wall_time) }

/-- Embedding of the per-benchmark body of `main`
(`create_exact_results.py` lines 63-90): the sorted union of both
mappings' (onnx_file, vnnlib_file) keys under the benchmark, one joined
row per key. -/
def benchmark_rows (abcrown_instances luna_instances :
    List (IKey × IVals)) (benchmark : String) : List JoinedRow :=
  let instance_keys :=
    (instanceKeysFor abcrown_instances benchmark ++
      instanceKeysFor luna_instances benchmark).dedup
  let sortedKeys := instance_keys.mergeSort pairLe
  sortedKeys.map (joined_row abcrown_instances luna_instances benchmark)

/-- Embedding of `main` of `create_exact_results.py` (lines 32-103) after
the two instance CSVs are parsed: one (benchmark, rows) output file per
benchmark present in either mapping, in sorted benchmark order. -/
def create_exact_results (abcrown_rows luna_rows : List CsvRow) :
    List (String × List JoinedRow) :=
  let abcrown_instances := parse_instances abcrown_rows
  let luna_instances := parse_instances luna_rows
  let benchmarks :=
    ((abcrown_instances.map (fun p => p.1.1) ++
        luna_instances.map (fun p => p.1.1)).dedup).mergeSort
      (fun a b => decide (a ≤ b))
  benchmarks.map (fun b => (b, benchmark_rows abcrown_instances
    luna_instances b))

end CreateExactResults

namespace CompileResults

theorem pySplitAux_ne_nil (sep : Char) :
    ∀ (cs acc : List Char), pySplitAux sep cs acc ≠ [] := by
  intro cs
  induction cs with
  | nil => intro acc; simp [pySplitAux]
  | cons c cs ih =>
    intro acc
    simp only [pySplitAux]
    split
    · simp
    · exact ih (c :: acc)

theorem pySplit_ne_nil (sep : Char) (s : String) : pySplit sep s ≠ [] :=
  pySplitAux_ne_nil sep s.toList []

theorem traverseOpt_length {f : α → Option β} :
    ∀ {l : List α} {res : List β},
      traverseOpt f l = some res → res.length = l.length := by
  intro l
  induction l with
  | nil =>
    intro res h
    simp only [traverseOpt, Option.some.injEq] at h
    simp [← h]
  | cons a l ih =>
    intro res h
    simp only [traverseOpt] at h
    cases hfa : f a with
    | none => rw [hfa] at h; exact absurd h (by simp)
    | some b =>
      cases ht : traverseOpt f l with
      | none => rw [hfa, ht] at h; exact absurd h (by simp)
      | some bs =>
        rw [hfa, ht] at h
        simp only [Option.some.injEq] at h
        simp [← h, ih ht]

theorem traverseOpt_eq_none_of_mem {f : α → Option β} {l : List α} {a : α}
    (ha : a ∈ l) (hfa : f a = none) : traverseOpt f l = none := by
  induction l with
  | nil => exact absurd ha (List.not_mem_nil a)
  | cons b l ih =>
    rcases List.mem_cons.mp ha with h | h
    · subst h
      simp only [traverseOpt, hfa]
    · simp only [traverseOpt, ih h]
      cases f b <;> rfl

theorem parse_float_list_ne_nil {pyFloat : String → Option ℚ} {s : String}
    {ls : List ℚ} (h : parse_float_list pyFloat s = some ls) : ls ≠ [] := by
  intro hnil
  subst hnil
  have hlen := traverseOpt_length h
  exact pySplit_ne_nil ',' s (List.length_eq_zero.mp hlen.symm)

theorem bind_parse_float_list_ne_nil {pyFloat : String → Option ℚ}
    {m : Option String} {ls : List ℚ}
    (h : m.bind (parse_float_list pyFloat) = some ls) : ls ≠ [] := by
  rcases Option.bind_eq_some.mp h with ⟨s, _, hs⟩
  exact parse_float_list_ne_nil hs

theorem zip_sub_sum :
    ∀ (ls us : List ℚ), ls.length = us.length →
      ((ls.zip us).map (fun p => p.2 - p.1)).sum =
        ∑ i ∈ Finset.range ls.length, (us.getD i 0 - ls.getD i 0) := by
  intro ls
  induction ls with
  | nil => intro us h; simp
  | cons a ls ih =>
    intro us h
    cases us with
    | nil => simp at h
    | cons b us =>
      simp only [List.length_cons, Nat.succ.injEq] at h
      simp only [List.zip_cons_cons, List.map_cons, List.sum_cons,
        List.length_cons, Finset.sum_range_succ']
      rw [ih us h]
      simp [List.getD_cons_succ, List.getD_cons_zero, add_comm]

theorem compute_bound_width_some_iff (lb ub : Option (List ℚ)) :
    (∃ w, compute_bound_width lb ub = some w) ↔
      ∃ ls us, lb = some ls ∧ ub = some us ∧ ls ≠ [] ∧ us ≠ [] ∧
        ls.length = us.length := by
  cases lb with
  | none => simp [compute_bound_width]
  | some ls =>
    cases ub with
    | none => simp [compute_bound_width]
    | some us =>
      simp only [compute_bound_width]
      by_cases hemp : ls.isEmpty || us.isEmpty
      · simp only [hemp, if_true]
        rcases Bool.or_eq_true_iff.mp hemp with h | h
        · simp [List.isEmpty_iff.mp h]
        · simp [List.isEmpty_iff.mp h]
      · simp only [hemp, if_false]
        rw [Bool.or_eq_true_iff] at hemp
        push_neg at hemp
        have h1 : ls ≠ [] := fun h => hemp.1 (by simp [h, List.isEmpty_iff])
        have h2 : us ≠ [] := fun h => hemp.2 (by simp [h, List.isEmpty_iff])
        by_cases hlen : ls.length = us.length
        · simp [hlen, h1, h2]
        · simp [hlen, h1, h2]

theorem compute_bound_width_eq (ls us : List ℚ) (h1 : ls ≠ [])
    (h3 : ls.length = us.length) :
    compute_bound_width (some ls) (some us) =
      some ((∑ i ∈ Finset.range ls.length,
          (us.getD i 0 - ls.getD i 0)) / (ls.length : ℚ)) := by
  have h2 : us ≠ [] := by
    intro h
    exact h1 (List.length_eq_zero.mp (by simp [h3, h]))
  simp only [compute_bound_width]
  rw [if_neg (by simp [List.isEmpty_iff, h1, h2]), if_neg (by simp [h3])]
  have hlz : ((ls.zip us).map (fun p => p.2 - p.1)).length = ls.length := by
    simp [List.length_zip, h3]
  rw [zip_sub_sum ls us h3, hlz]

theorem abcrown_bounds_shape {pyFloat : String → Option ℚ}
    {raw : AbcrownRaw} {d : RunOutData}
    (h : parse_abcrown_run_out pyFloat raw = some d) :
    (∀ ls, d.lower_bounds = some ls → ls ≠ []) ∧
    (∀ us, d.upper_bounds = some us → us ≠ []) := by
  unfold parse_abcrown_run_out at h
  have hgoal : ∀ d' : RunOutData,
      d'.lower_bounds = (raw.alpha_lower.or raw.crown_lower).bind
        (parse_float_list pyFloat) →
      d'.upper_bounds = (raw.alpha_upper.or raw.crown_upper).bind
        (parse_float_list pyFloat) →
      (∀ ls, d'.lower_bounds = some ls → ls ≠ []) ∧
      (∀ us, d'.upper_bounds = some us → us ≠ []) := by
    intro d' hl hu
    constructor
    · intro ls hls
      exact bind_parse_float_list_ne_nil (hl ▸ hls)
    · intro us hus
      exact bind_parse_float_list_ne_nil (hu ▸ hus)
  cases htt : raw.time_token with
  | none =>
    simp only [parse_abcrown_run_out, htt, Option.some.injEq] at h
    exact hgoal d (by rw [← h]) (by rw [← h])
  | some ts =>
    cases hpf : pyFloat ts with
    | none => simp [parse_abcrown_run_out, htt, hpf] at h
    | some t =>
      simp only [parse_abcrown_run_out, htt, hpf, Option.some.injEq] at h
      exact hgoal d (by rw [← h]) (by rw [← h])

theorem luna_bounds_shape {pyFloat : String → Option ℚ}
    {raw : LunaRaw} {d : RunOutData}
    (h : parse_luna_run_out pyFloat raw = some d) :
    (d.lower_bounds = none ∧ d.upper_bounds = none) ∨
    (∃ ls us, d.lower_bounds = some ls ∧ d.upper_bounds = some us ∧
      ls ≠ [] ∧ us ≠ [] ∧ ls.length = us.length) := by
  cases hbp : raw.bounds_pairs with
  | none =>
    simp only [parse_luna_run_out, hbp, Option.some.injEq] at h
    left
    constructor <;> rw [← h]
  | some pairs =>
    by_cases hemp : pairs.isEmpty
    · simp only [parse_luna_run_out, hbp, hemp, if_true,
        Option.some.injEq] at h
      left
      constructor <;> rw [← h]
    · have hemp' : pairs.isEmpty = false := by
        cases hb : pairs.isEmpty
        · rfl
        · exact absurd hb hemp
      have hpne : pairs ≠ [] := fun hp => by simp [hp] at hemp'
      cases hls : traverseOpt (fun p => pyFloat p.1) pairs with
      | none => simp [parse_luna_run_out, hbp, hemp', hls] at h
      | some ls =>
        cases hus : traverseOpt (fun p => pyFloat p.2) pairs with
        | none => simp [parse_luna_run_out, hbp, hemp', hls, hus] at h
        | some us =>
          simp only [parse_luna_run_out, hbp, hemp', Bool.false_eq_true,
            if_false, hls, hus, Option.some.injEq] at h
          right
          refine ⟨ls, us, by rw [← h], by rw [← h], ?_, ?_, ?_⟩
          · intro hnil
            subst hnil
            exact hpne (List.length_eq_zero.mp (traverseOpt_length hls).symm)
          · intro hnil
            subst hnil
            exact hpne (List.length_eq_zero.mp (traverseOpt_length hus).symm)
          · rw [traverseOpt_length hls, traverseOpt_length hus]

/-- A job record reachable from the collector: built by `mkRecord` from a
successful output of either tool's parser and some timing-log data
(`compile_results.py` lines 222-251; the log data defaults to no wall
time and no timeout when `output.log` is missing, which is one possible
`LogData` value). -/
def collectorRecord (pyFloat : String → Option ℚ) (r : JobRecord) : Prop :=
  ∃ tool benchmark slurm_id d log_data,
    ((∃ raw, parse_abcrown_run_out pyFloat raw = some d) ∨
     (∃ raw, parse_luna_run_out pyFloat raw = some d)) ∧
    r = mkRecord tool benchmark slurm_id d log_data

theorem collectorRecord_bounds_shape {pyFloat : String → Option ℚ}
    {r : JobRecord} (hr : collectorRecord pyFloat r) :
    (∀ ls, r.lower_bounds = some ls → ls ≠ []) ∧
    (∀ us, r.upper_bounds = some us → us ≠ []) := by
  obtain ⟨tool, benchmark, slurm_id, d, log_data, hd, hrec⟩ := hr
  have hlow : r.lower_bounds = d.lower_bounds := by rw [hrec]; rfl
  have hup : r.upper_bounds = d.upper_bounds := by rw [hrec]; rfl
  rcases hd with ⟨raw, hp⟩ | ⟨raw, hp⟩
  · have := abcrown_bounds_shape hp
    exact ⟨fun ls h => this.1 ls (hlow ▸ h), fun us h => this.2 us (hup ▸ h)⟩
  · rcases luna_bounds_shape hp with ⟨h1, h2⟩ | ⟨ls, us, h1, h2, h3, h4, _⟩
    · constructor
      · intro ls h; rw [hlow, h1] at h; exact absurd h (by simp)
      · intro us h; rw [hup, h2] at h; exact absurd h (by simp)
    · constructor
      · intro ls' h
        rw [hlow, h1, Option.some.injEq] at h
        rw [← h]; exact h3
      · intro us' h
        rw [hup, h2, Option.some.injEq] at h
        rw [← h]; exact h4

/-- C1: for every job record built by the collector from either tool's
parser output, `bound_width` is defined iff both `lower_bounds` and
`upper_bounds` are present and of equal length; when defined it equals
the mean over all indices `i` of `upper_bounds[i] - lower_bounds[i]`, and
it is exactly `compute_bound_width` applied to the two optional lists. -/
theorem collector_bound_width_invariant
    (pyFloat : String → Option ℚ) (r : JobRecord)
    (hr : collectorRecord pyFloat r) :
    ((∃ w, r.bound_width = some w) ↔
      ∃ ls us, r.lower_bounds = some ls ∧ r.upper_bounds = some us ∧
        ls.length = us.length) ∧
    (∀ w, r.bound_width = some w →
      ∃ ls us, r.lower_bounds = some ls ∧ r.upper_bounds = some us ∧
        0 < ls.length ∧ ls.length = us.length ∧
        w = (∑ i ∈ Finset.range ls.length,
            (us.getD i 0 - ls.getD i 0)) / (ls.length : ℚ)) ∧
    r.bound_width = compute_bound_width r.lower_bounds r.upper_bounds := by
  have hshape := collectorRecord_bounds_shape hr
  have hbw : r.bound_width =
      compute_bound_width r.lower_bounds r.upper_bounds := by
    obtain ⟨tool, benchmark, slurm_id, d, log_data, _, hrec⟩ := hr
    rw [hrec]; rfl
  refine ⟨?_, ?_, hbw⟩
  · rw [hbw, compute_bound_width_some_iff]
    constructor
    · rintro ⟨ls, us, h1, h2, _, _, h5⟩
      exact ⟨ls, us, h1, h2, h5⟩
    · rintro ⟨ls, us, h1, h2, h5⟩
      exact ⟨ls, us, h1, h2, hshape.1 ls h1, hshape.2 us h2, h5⟩
  · intro w hw
    rw [hbw] at hw
    obtain ⟨ls, us, h1, h2, h3, _, h5⟩ :=
      (compute_bound_width_some_iff r.lower_bounds r.upper_bounds).mp ⟨w, hw⟩
    refine ⟨ls, us, h1, h2, List.length_pos.mpr h3, h5, ?_⟩
    rw [h1, h2, compute_bound_width_eq ls us h3 h5] at hw
    exact (Option.some.inj hw).symm

/-- A concrete instance of the float-conversion oracle, agreeing with
Python `float()` on the few literals used in the concrete examples
below. -/
def pyFloatEx (s : String) : Option ℚ :=
  if s = "1.0" then some 1
  else if s = "2.0" then some 2
  else if s = "3.0" then some 3
  else if s = "5.0" then some 5
  else none

/-- Captured groups of an abcrown log whose alpha-crown bound lists both
have two entries. -/
def rawAEx : AbcrownRaw :=
  { args_tokens := some ["python", "net.onnx", "prop.vnnlib"]
    result_token := some "unsat"
    time_token := none
    alpha_lower := some "1.0, 2.0"
    alpha_upper := some "3.0, 5.0"
    crown_lower := none
    crown_upper := none }

/-- The parse result of `rawAEx` under `pyFloatEx`. -/
def dAEx : RunOutData :=
  { lower_bounds := some [1, 2]
    upper_bounds := some [3, 5]
    status := some "verified"
    time := none
    onnx_file := some "net.onnx"
    vnnlib_file := some "prop.vnnlib" }

/-- The collector record built from `dAEx`. -/
def recAEx : JobRecord :=
  mkRecord "abcrown" "B1" "7" dAEx ⟨some 12, false⟩

theorem collector_bound_width_invariant_witness :
    ((∃ w, recAEx.bound_width = some w) ↔
      ∃ ls us, recAEx.lower_bounds = some ls ∧
        recAEx.upper_bounds = some us ∧ ls.length = us.length) ∧
    (∀ w, recAEx.bound_width = some w →
      ∃ ls us, recAEx.lower_bounds = some ls ∧
        recAEx.upper_bounds = some us ∧
        0 < ls.length ∧ ls.length = us.length ∧
        w = (∑ i ∈ Finset.range ls.length,
            (us.getD i 0 - ls.getD i 0)) / (ls.length : ℚ)) ∧
    recAEx.bound_width =
      compute_bound_width recAEx.lower_bounds recAEx.upper_bounds :=
  collector_bound_width_invariant pyFloatEx recAEx
    ⟨"abcrown", "B1", "7", dAEx, ⟨some 12, false⟩,
      Or.inl ⟨rawAEx, by decide⟩, rfl⟩

/-- Captured groups of an abcrown log whose two captured bound lists have
different lengths (one versus two entries). -/
def rawMisEx : AbcrownRaw :=
  { args_tokens := none
    result_token := some "timeout"
    time_token := none
    alpha_lower := some "1.0"
    alpha_upper := some "3.0, 5.0"
    crown_lower := none
    crown_upper := none }

/-- The parse result of `rawMisEx` under `pyFloatEx`: both bound lists
present but of different lengths. -/
def dMisEx : RunOutData :=
  { lower_bounds := some [1]
    upper_bounds := some [3, 5]
    status := some "timeout"
    time := none
    onnx_file := none
    vnnlib_file := none }

/-- The collector record built from `dMisEx` with no timeout. -/
def recMisEx : JobRecord :=
  mkRecord "abcrown" "B2" "3" dMisEx ⟨none, false⟩

/-- C2 counterexample: a collector-reachable record whose bound lists have
mismatched lengths has `has_result = true` although `timed_out` is false
and `bound_width` is undefined, refuting `has_result ↔ (timed_out ∨
bound_width defined)`. -/
theorem collector_has_result_counterexample :
    parse_abcrown_run_out pyFloatEx rawMisEx = some dMisEx ∧
    recMisEx.has_result = true ∧ recMisEx.timed_out = false ∧
    recMisEx.bound_width = none := by
  refine ⟨by decide, by decide, by decide, by decide⟩

/-- C2 amended: for every job record built by the collector, `has_result`
is true iff `timed_out` is true or both `lower_bounds` and `upper_bounds`
are present (which coincides with `bound_width` being defined only when
the present lists also have equal lengths). -/
theorem collector_has_result_iff (pyFloat : String → Option ℚ)
    (r : JobRecord) (hr : collectorRecord pyFloat r) :
    r.has_result = true ↔
      r.timed_out = true ∨
        (r.lower_bounds.isSome = true ∧ r.upper_bounds.isSome = true) := by
  obtain ⟨tool, benchmark, slurm_id, d, log_data, _, hrec⟩ := hr
  subst hrec
  simp [mkRecord, Bool.or_eq_true, Bool.and_eq_true]

theorem collector_has_result_iff_witness :
    recMisEx.has_result = true ↔
      recMisEx.timed_out = true ∨
        (recMisEx.lower_bounds.isSome = true ∧
          recMisEx.upper_bounds.isSome = true) :=
  collector_has_result_iff pyFloatEx recMisEx
    ⟨"abcrown", "B2", "3", dMisEx, ⟨none, false⟩,
      Or.inl ⟨rawMisEx, by decide⟩, rfl⟩

theorem keys_filter_common (rs : List JobRecord)
    (common : Finset (String × String)) (hsub : common ⊆ validKeys rs) :
    ((rs.filter (fun r => decide (recordKey r ∈ common))).map
      recordKey).toFinset = common := by
  ext k
  simp only [List.mem_toFinset, List.mem_map, List.mem_filter,
    decide_eq_true_eq]
  constructor
  · rintro ⟨r, ⟨_, hk⟩, hkey⟩
    rw [← hkey]
    exact hk
  · intro hk
    have hv := hsub hk
    simp only [validKeys, List.mem_toFinset, List.mem_map,
      List.mem_filter] at hv
    obtain ⟨r, ⟨hr, _⟩, hkey⟩ := hv
    exact ⟨r, ⟨hr, hkey ▸ hk⟩, hkey⟩

/-- C3: the common-instance filter never enlarges either record list, and
the key sets of the two filtered lists are identical — both equal to the
intersection of the two tools' `has_result` key sets. -/
theorem filter_common_instances_spec
    (abcrown_results luna_results : List JobRecord) :
    (filter_common_instances abcrown_results luna_results).1.length ≤
        abcrown_results.length ∧
    (filter_common_instances abcrown_results luna_results).2.length ≤
        luna_results.length ∧
    ((filter_common_instances abcrown_results luna_results).1.map
        recordKey).toFinset =
      ((filter_common_instances abcrown_results luna_results).2.map
        recordKey).toFinset ∧
    ((filter_common_instances abcrown_results luna_results).1.map
        recordKey).toFinset =
      validKeys abcrown_results ∩ validKeys luna_results := by
  have h1 := keys_filter_common abcrown_results
    (validKeys abcrown_results ∩ validKeys luna_results)
    Finset.inter_subset_left
  have h2 := keys_filter_common luna_results
    (validKeys abcrown_results ∩ validKeys luna_results)
    Finset.inter_subset_right
  refine ⟨?_, ?_, ?_, ?_⟩
  · simp only [filter_common_instances]
    exact List.length_filter_le _ _
  · simp only [filter_common_instances]
    exact List.length_filter_le _ _
  · simp only [filter_common_instances]
    rw [h1, h2]
  · simp only [filter_common_instances]
    rw [h1]

/-- C4: `get_common_bounds_instances` and `get_common_finished_instances`
return the same key set, which is the intersection of the keys at which
each tool's record list has a record with a defined `bound_width` (the
set the spec calls `commonBoundsKeys`). -/
theorem common_bounds_eq_common_finished
    (abcrown_results luna_results : List JobRecord) :
    get_common_bounds_instances abcrown_results luna_results =
      get_common_finished_instances abcrown_results luna_results ∧
    get_common_bounds_instances abcrown_results luna_results =
      commonBoundsKeysSpec abcrown_results luna_results ∧
    ∀ k, k ∈ get_common_bounds_instances abcrown_results luna_results ↔
      ((∃ r ∈ abcrown_results, recordKey r = k ∧
          r.bound_width.isSome = true) ∧
       (∃ r ∈ luna_results, recordKey r = k ∧
          r.bound_width.isSome = true)) := by
  refine ⟨rfl, rfl, ?_⟩
  intro k
  simp only [get_common_bounds_instances, Finset.mem_inter,
    List.mem_toFinset, List.mem_map, List.mem_filter]
  constructor
  · rintro ⟨⟨r, ⟨hr, hb⟩, hk⟩, ⟨u, ⟨hu, hub⟩, huk⟩⟩
    exact ⟨⟨r, hr, hk, hb⟩, ⟨u, hu, huk, hub⟩⟩
  · rintro ⟨⟨r, hr, hk, hb⟩, ⟨u, hu, huk, hub⟩⟩
    exact ⟨⟨r, ⟨hr, hb⟩, hk⟩, ⟨u, ⟨hu, hub⟩, huk⟩⟩

theorem countP_bound_width_partition (l : List JobRecord) :
    l.countP (fun i => i.bound_width.isSome) +
      l.countP (fun i => i.bound_width.isNone) = l.length := by
  induction l with
  | nil => rfl
  | cons a l ih =>
    rw [List.countP_cons, List.countP_cons, List.length_cons]
    cases hb : a.bound_width <;> simp [hb] <;> omega

/-- C5: in every aggregate row with a positive instance count, the solved
and timeout percentages add up to exactly 100, because the solved and
timeout counts partition the benchmark's instances by whether
`bound_width` is defined. -/
theorem aggregate_pct_partition (results : List JobRecord)
    (common_bounds_instances common_finished_instances :
      Option (Finset (String × String)))
    (a : AggregateRow)
    (ha : a ∈ compute_aggregates results common_bounds_instances
      common_finished_instances)
    (htot : 0 < a.total_instances) :
    a.solved_pct + a.timeout_pct = 100 := by
  simp only [compute_aggregates, List.mem_map] at ha
  obtain ⟨b, _, hb⟩ := ha
  subst hb
  simp only [aggregate_row] at htot ⊢
  set l := results.filter (fun r => decide (r.benchmark = b)) with hl
  rw [if_pos htot, if_pos htot]
  have hpart := countP_bound_width_partition l
  have hn : (l.length : ℚ) ≠ 0 := Nat.cast_ne_zero.mpr htot.ne'
  have hcast : ((l.countP (fun i => i.bound_width.isSome) : ℚ) +
      (l.countP (fun i => i.bound_width.isNone) : ℚ)) = (l.length : ℚ) := by
    exact_mod_cast hpart
  field_simp
  linarith [hcast]

/-- The aggregate row computed for benchmark "B1" from the one-record
list `[recAEx]`. -/
def aggEx : AggregateRow :=
  aggregate_row none none "B1"
    ([recAEx].filter (fun r => decide (r.benchmark = "B1")))

theorem aggregate_pct_partition_witness :
    aggEx.solved_pct + aggEx.timeout_pct = 100 := by
  refine aggregate_pct_partition [recAEx] none none aggEx ?_ (by decide)
  simp only [compute_aggregates]
  have hb : "B1" ∈ (((([recAEx].map
      (fun r => r.benchmark))).dedup).mergeSort
        (fun a b => decide (a ≤ b))) := by
    rw [(List.mergeSort_perm _ _).mem_iff, List.mem_dedup]
    decide
  exact List.mem_map_of_mem _ hb

/-- A record whose optional fields are all absent, built by the collector
from a run.out in which no pattern matched and a missing output.log. -/
def recNoneEx : JobRecord :=
  mkRecord "abcrown" "B3" "9" ⟨none, none, none, none, none, none⟩
    ⟨none, false⟩

/-- C6 counterexample: a record with `wall_time` absent renders its
`wall_time` cell as the empty string, not as the `"--"` placeholder the
claim asserts for every raw numeric column. -/
theorem instance_csv_wall_time_counterexample :
    recNoneEx.wall_time = none ∧
    (instance_csv_row recNoneEx).wall_time = "" ∧
    (instance_csv_row recNoneEx).wall_time ≠ "--" := by
  refine ⟨rfl, rfl, by decide⟩

/-- C6 amended: in the per-instance CSV row, a missing `bound_width`,
`lower_bounds` or `upper_bounds` renders as the placeholder `"--"`, while
a missing `wall_time` renders as the empty string (the writer tests the
value's truthiness), and the missing text columns (`onnx_file`,
`vnnlib_file`, `status`) render as the empty string. -/
theorem instance_csv_missing_values (r : JobRecord) :
    (r.bound_width = none → (instance_csv_row r).bound_width = "--") ∧
    (r.lower_bounds = none → (instance_csv_row r).lower_bounds = "--") ∧
    (r.upper_bounds = none → (instance_csv_row r).upper_bounds = "--") ∧
    (r.wall_time = none → (instance_csv_row r).wall_time = "") ∧
    (r.onnx_file = none → (instance_csv_row r).onnx_file = "") ∧
    (r.vnnlib_file = none → (instance_csv_row r).vnnlib_file = "") ∧
    (r.status = none → (instance_csv_row r).status = "") := by
  refine ⟨?_, ?_, ?_, ?_, ?_, ?_, ?_⟩ <;>
    intro h <;> simp [instance_csv_row, pyOr, h]

theorem instance_csv_missing_values_witness :
    (instance_csv_row recNoneEx).bound_width = "--" ∧
    (instance_csv_row recNoneEx).lower_bounds = "--" ∧
    (instance_csv_row recNoneEx).upper_bounds = "--" ∧
    (instance_csv_row recNoneEx).wall_time = "" ∧
    (instance_csv_row recNoneEx).onnx_file = "" ∧
    (instance_csv_row recNoneEx).vnnlib_file = "" ∧
    (instance_csv_row recNoneEx).status = "" :=
  ⟨(instance_csv_missing_values recNoneEx).1 rfl,
   (instance_csv_missing_values recNoneEx).2.1 rfl,
   (instance_csv_missing_values recNoneEx).2.2.1 rfl,
   (instance_csv_missing_values recNoneEx).2.2.2.1 rfl,
   (instance_csv_missing_values recNoneEx).2.2.2.2.1 rfl,
   (instance_csv_missing_values recNoneEx).2.2.2.2.2.1 rfl,
   (instance_csv_missing_values recNoneEx).2.2.2.2.2.2 rfl⟩

theorem roundHalfEven_zero : roundHalfEven 0 = 0 := by
  norm_num [roundHalfEven]

theorem formatFixed_six_zero : formatFixed 6 0 = "0.000000" := by
  have habs : |(0 : ℚ)| * (10 : ℚ) ^ (6 : ℕ) = 0 := by norm_num
  simp only [formatFixed, habs, roundHalfEven_zero]
  decide

/-- C9: a defined `wall_time` equal to 0 renders as the empty string —
identically to an absent `wall_time` — because the writer tests the
value's truthiness; `bound_width` instead tests presence, so a defined 0
renders as `"0.000000"`. -/
theorem wall_time_zero_renders_empty (r : JobRecord) :
    (r.wall_time = some 0 →
      (instance_csv_row r).wall_time = "" ∧
      (instance_csv_row { r with wall_time := none }).wall_time = "") ∧
    (r.bound_width = some 0 →
      (instance_csv_row r).bound_width = "0.000000") := by
  constructor
  · intro h
    constructor
    · simp [instance_csv_row, h]
    · simp [instance_csv_row]
  · intro h
    simp [instance_csv_row, h, formatFixed_six_zero]

/-- A collector record whose wall time is 0 and whose single bound
interval is degenerate, so its bound width is 0. -/
def recZeroEx : JobRecord :=
  mkRecord "luna" "B4" "2" ⟨some [1], some [1], some "verified", none,
    none, none⟩ ⟨some 0, false⟩

theorem wall_time_zero_renders_empty_witness :
    ((instance_csv_row recZeroEx).wall_time = "" ∧
      (instance_csv_row { recZeroEx with wall_time := none }).wall_time =
        "") ∧
    (instance_csv_row recZeroEx).bound_width = "0.000000" :=
  ⟨(wall_time_zero_renders_empty recZeroEx).1 rfl,
   (wall_time_zero_renders_empty recZeroEx).2 (by
     show compute_bound_width (some [1]) (some [1]) = some 0
     norm_num [compute_bound_width])⟩

theorem abcrown_status_eq {pyFloat : String → Option ℚ}
    {raw : AbcrownRaw} {d : RunOutData}
    (h : parse_abcrown_run_out pyFloat raw = some d) :
    d.status = raw.result_token.map
      (fun w => if pyLower w = "unsat" then "verified" else pyLower w) := by
  cases htt : raw.time_token with
  | none =>
    simp only [parse_abcrown_run_out, htt, Option.some.injEq] at h
    rw [← h]
  | some ts =>
    cases hpf : pyFloat ts with
    | none => simp [parse_abcrown_run_out, htt, hpf] at h
    | some t =>
      simp only [parse_abcrown_run_out, htt, hpf, Option.some.injEq] at h
      rw [← h]

theorem luna_status_eq {pyFloat : String → Option ℚ}
    {raw : LunaRaw} {d : RunOutData}
    (h : parse_luna_run_out pyFloat raw = some d) :
    d.status =
      match raw.result_token with
      | some w =>
        some (if pyLower w = "unsat" ∨ pyLower w = "sat" then "verified"
              else "unknown")
      | none =>
        raw.prop_status_token.map
          (fun w => if pyUpper w = "VERIFIED" ∨ pyUpper w = "VIOLATED" then
              "verified" else "unknown") := by
  cases hbp : raw.bounds_pairs with
  | none =>
    simp only [parse_luna_run_out, hbp, Option.some.injEq] at h
    rw [← h]
  | some pairs =>
    by_cases hemp : pairs.isEmpty
    · simp only [parse_luna_run_out, hbp, hemp, if_true,
        Option.some.injEq] at h
      rw [← h]
    · have hemp' : pairs.isEmpty = false := by
        cases hb : pairs.isEmpty
        · rfl
        · exact absurd hb hemp
      cases hls : traverseOpt (fun p => pyFloat p.1) pairs with
      | none => simp [parse_luna_run_out, hbp, hemp', hls] at h
      | some ls =>
        cases hus : traverseOpt (fun p => pyFloat p.2) pairs with
        | none => simp [parse_luna_run_out, hbp, hemp', hls, hus] at h
        | some us =>
          simp only [parse_luna_run_out, hbp, hemp', Bool.false_eq_true,
            if_false, hls, hus, Option.some.injEq] at h
          rw [← h]

/-- C7: status normalization is tool-specific.  For abcrown a parsed raw
status token of `unsat` yields "verified" and any other token is passed
through lowercased verbatim; for luna a token of `unsat` or `sat` yields
"verified" and any other token yields "unknown", and only when no
`Result:` line matched does the legacy `Property status:` fallback apply,
where `VERIFIED` or `VIOLATED` yields "verified" and anything else
"unknown". -/
theorem status_normalization :
    (∀ (pyFloat : String → Option ℚ) (raw : AbcrownRaw) (d : RunOutData),
      parse_abcrown_run_out pyFloat raw = some d →
      ∀ w, raw.result_token = some w →
        d.status =
          some (if pyLower w = "unsat" then "verified" else pyLower w)) ∧
    (∀ (pyFloat : String → Option ℚ) (raw : LunaRaw) (d : RunOutData),
      parse_luna_run_out pyFloat raw = some d →
      (∀ w, raw.result_token = some w →
        d.status = some (if pyLower w = "unsat" ∨ pyLower w = "sat" then
          "verified" else "unknown")) ∧
      (raw.result_token = none →
        ∀ w, raw.prop_status_token = some w →
          d.status = some (if pyUpper w = "VERIFIED" ∨
            pyUpper w = "VIOLATED" then "verified" else "unknown"))) := by
  constructor
  · intro pyFloat raw d h w hw
    rw [abcrown_status_eq h, hw]
    rfl
  · intro pyFloat raw d h
    constructor
    · intro w hw
      rw [luna_status_eq h, hw]
    · intro hw w hw'
      rw [luna_status_eq h, hw, hw']
      rfl

/-- Captured groups of a luna log with a `Result: sat` line and no
bounds. -/
def rawLEx : LunaRaw :=
  { args_tokens := none
    result_token := some "sat"
    prop_status_token := none
    bounds_pairs := none }

/-- The parse result of `rawLEx`. -/
def dLEx : RunOutData :=
  { lower_bounds := none
    upper_bounds := none
    status := some "verified"
    time := none
    onnx_file := none
    vnnlib_file := none }

/-- Captured groups of a legacy luna log with only a
`Property status: VIOLATED` line. -/
def rawLFEx : LunaRaw :=
  { args_tokens := none
    result_token := none
    prop_status_token := some "VIOLATED"
    bounds_pairs := none }

/-- The parse result of `rawLFEx`. -/
def dLFEx : RunOutData :=
  { lower_bounds := none
    upper_bounds := none
    status := some "verified"
    time := none
    onnx_file := none
    vnnlib_file := none }

theorem status_normalization_witness :
    dAEx.status = some (if pyLower "unsat" = "unsat" then "verified"
      else pyLower "unsat") ∧
    dLEx.status = some (if pyLower "sat" = "unsat" ∨ pyLower "sat" = "sat"
      then "verified" else "unknown") ∧
    dLFEx.status = some (if pyUpper "VIOLATED" = "VERIFIED" ∨
      pyUpper "VIOLATED" = "VIOLATED" then "verified" else "unknown") :=
  ⟨status_normalization.1 pyFloatEx rawAEx dAEx (by decide) "unsat" rfl,
   (status_normalization.2 pyFloatEx rawLEx dLEx (by decide)).1 "sat" rfl,
   (status_normalization.2 pyFloatEx rawLFEx dLFEx (by decide)).2 rfl
     "VIOLATED" rfl⟩

/-- C10: if any entry of a benchmark directory is named `slurm-<x>` with
`<x>` not a decimal integer, the sort key of the job-directory sort
raises an uncaught ValueError, so the sort — and with it the whole
benchmark's collection — aborts instead of skipping the entry. -/
theorem bad_slurm_id_aborts (entries : List DirEntry)
    (h : ∃ e ∈ entries, pyStartsWith e.name "slurm-" = true ∧
      pyInt ((pySplit '-' e.name).getD 1 "") = none) :
    sorted_job_dirs entries = none ∧ processed_job_dirs entries = none := by
  obtain ⟨e, he, h1, h2⟩ := h
  have hkey : slurm_sort_key e.name = none := by
    rw [slurm_sort_key, if_pos h1, h2]
  have htrav : traverseOpt
      (fun e => (slurm_sort_key e.name).map (fun k => (k, e)))
      entries = none :=
    traverseOpt_eq_none_of_mem he (by rw [hkey]; rfl)
  constructor
  · simp [sorted_job_dirs, htrav]
  · simp [processed_job_dirs, sorted_job_dirs, htrav]

/-- A directory entry named `slurm-abc`, whose second hyphen-separated
component is not a decimal integer. -/
def badDirEx : DirEntry := ⟨"slurm-abc", true, true⟩

theorem bad_slurm_id_aborts_witness :
    sorted_job_dirs [badDirEx] = none ∧
    processed_job_dirs [badDirEx] = none :=
  bad_slurm_id_aborts [badDirEx] ⟨badDirEx, by decide, by decide, by decide⟩

end CompileResults

namespace CreateExactResults

theorem countP_eq_ite_of_nodup [DecidableEq α] (l : List α) (hl : l.Nodup)
    (a : α) :
    l.countP (fun x => decide (x = a)) = if a ∈ l then 1 else 0 := by
  induction l with
  | nil => simp
  | cons b l ih =>
    rw [List.countP_cons]
    rcases List.nodup_cons.mp hl with ⟨hb, hl'⟩
    by_cases hab : b = a
    · subst hab
      have h0 : l.countP (fun x => decide (x = b)) = 0 := by
        rw [ih hl', if_neg hb]
      simp [h0]
    · have h0 : (if decide (b = a) = true then 1 else 0) = 0 := by
        simp [hab]
      rw [h0, Nat.add_zero, ih hl']
      have hmem : a ∈ b :: l ↔ a ∈ l := by
        rw [List.mem_cons]
        constructor
        · rintro (h | h)
          · exact absurd h.symm hab
          · exact h
        · exact Or.inr
      by_cases hal : a ∈ l
      · rw [if_pos hal, if_pos (hmem.mpr hal)]
      · rw [if_neg hal, if_neg (fun h => hal (hmem.mp h))]

/-- C8: for each benchmark present in either parsed instance mapping, the
joiner emits one output (benchmark, rows) entry; its rows contain exactly
one row per (onnx_file, vnnlib_file) key of the union of the two
mappings' keys under that benchmark, and each row carries both tools'
`bound_width` and `wall_time` (the stored strings when the key is present
in that tool's mapping, and the empty string when it is absent). -/
theorem joiner_rows_spec (abcrown_rows luna_rows : List CsvRow)
    (b : String)
    (hb : b ∈ (parse_instances abcrown_rows).map (fun p => p.1.1) ∨
          b ∈ (parse_instances luna_rows).map (fun p => p.1.1)) :
    ((b, benchmark_rows (parse_instances abcrown_rows)
        (parse_instances luna_rows) b) ∈
      create_exact_results abcrown_rows luna_rows) ∧
    (∀ o v,
      (benchmark_rows (parse_instances abcrown_rows)
          (parse_instances luna_rows) b).countP
        (fun row => decide (row.onnx_file = o ∧ row.vnnlib_file = v)) =
      if (o, v) ∈ instanceKeysFor (parse_instances abcrown_rows) b ++
          instanceKeysFor (parse_instances luna_rows) b then 1 else 0) ∧
    (∀ row ∈ benchmark_rows (parse_instances abcrown_rows)
        (parse_instances luna_rows) b,
      (dget (parse_instances abcrown_rows)
          (b, row.onnx_file, row.vnnlib_file) = none →
        row.abcrown_bound_width = "" ∧ row.abcrown_runtime = "") ∧
      (∀ dv, dget (parse_instances abcrown_rows)
          (b, row.onnx_file, row.vnnlib_file) = some dv →
        row.abcrown_bound_width = dv.bound_width ∧
        row.abcrown_runtime = dv.wall_time) ∧
      (dget (parse_instances luna_rows)
          (b, row.onnx_file, row.vnnlib_file) = none →
        row.luna_bound_width = "" ∧ row.luna_runtime = "") ∧
      (∀ dv, dget (parse_instances luna_rows)
          (b, row.onnx_file, row.vnnlib_file) = some dv →
        row.luna_bound_width = dv.bound_width ∧
        row.luna_runtime = dv.wall_time)) := by
  refine ⟨?_, ?_, ?_⟩
  · simp only [create_exact_results]
    have hbm : b ∈ (((parse_instances abcrown_rows).map (fun p => p.1.1) ++
        (parse_instances luna_rows).map (fun p => p.1.1)).dedup).mergeSort
          (fun a b => decide (a ≤ b)) := by
      rw [(List.mergeSort_perm _ _).mem_iff, List.mem_dedup,
        List.mem_append]
      exact hb
    exact List.mem_map_of_mem _ hbm
  · intro o v
    simp only [benchmark_rows]
    rw [List.countP_map]
    have hc1 := ((List.mergeSort_perm
      ((instanceKeysFor (parse_instances abcrown_rows) b ++
        instanceKeysFor (parse_instances luna_rows) b).dedup)
      pairLe).countP_eq
        ((fun row : JoinedRow =>
            decide (row.onnx_file = o ∧ row.vnnlib_file = v)) ∘
          joined_row (parse_instances abcrown_rows)
            (parse_instances luna_rows) b))
    rw [hc1]
    have hc2 := List.countP_congr
      (l := (instanceKeysFor (parse_instances abcrown_rows) b ++
        instanceKeysFor (parse_instances luna_rows) b).dedup)
      (p := (fun row : JoinedRow =>
          decide (row.onnx_file = o ∧ row.vnnlib_file = v)) ∘
        joined_row (parse_instances abcrown_rows)
          (parse_instances luna_rows) b)
      (q := fun kv => decide (kv = (o, v)))
      (fun kv _ => by
        simp only [Function.comp_apply, decide_eq_true_eq]
        show kv.1 = o ∧ kv.2 = v ↔ kv = (o, v)
        exact Iff.symm Prod.ext_iff)
    rw [hc2, countP_eq_ite_of_nodup _ (List.nodup_dedup _) _]
    by_cases hm : (o, v) ∈ instanceKeysFor (parse_instances abcrown_rows) b
        ++ instanceKeysFor (parse_instances luna_rows) b
    · rw [if_pos (List.mem_dedup.mpr hm), if_pos hm]
    · rw [if_neg (fun h => hm (List.mem_dedup.mp h)), if_neg hm]
  · intro row hrow
    simp only [benchmark_rows, List.mem_map] at hrow
    obtain ⟨kv, _, hkv⟩ := hrow
    subst hkv
    refine ⟨?_, ?_, ?_, ?_⟩
    · intro h
      simp only [joined_row] at h ⊢
      constructor <;> simp [getField, h]
    · intro dv h
      simp only [joined_row] at h ⊢
      constructor <;> simp [getField, h]
    · intro h
      simp only [joined_row] at h ⊢
      constructor <;> simp [getField, h]
    · intro dv h
      simp only [joined_row] at h ⊢
      constructor <;> simp [getField, h]

/-- A one-row abcrown instance CSV for the joiner example. -/
def abRowsEx : List CsvRow :=
  [{ benchmark := "acas"
     onnx_file := "n1.onnx"
     vnnlib_file := "p1.vnnlib"
     bound_width := "0.500000"
     wall_time := "1.0000"
     status := "verified"
     timed_out := "" }]

/-- A one-row luna instance CSV for the joiner example, keyed differently
from the abcrown row. -/
def luRowsEx : List CsvRow :=
  [{ benchmark := "acas"
     onnx_file := "n2.onnx"
     vnnlib_file := "p2.vnnlib"
     bound_width := "--"
     wall_time := "2.0000"
     status := "unknown"
     timed_out := "TO" }]

theorem joiner_rows_spec_witness :
    ("acas", benchmark_rows (parse_instances abRowsEx)
        (parse_instances luRowsEx) "acas") ∈
      create_exact_results abRowsEx luRowsEx :=
  (joiner_rows_spec abRowsEx luRowsEx "acas" (Or.inl (by decide))).1

end CreateExactResults
